import Mathlib

/-!
Verification of the jellyschema DSL compiler core: a shallow embedding of
the schema deserializer (src/dsl/schema/deserialization.rs), the
normalizer (src/dsl/schema/normalization.rs), the enumeration-value
constructor (src/dsl/enums/mod.rs) and the serializer envelope
(src/output/serialization/json_schema.rs), together with theorems about
the behaviour of these functions.

The input trees are modelled by `Value`, mirroring the generic YAML value
type used by the deserializer (null / bool / integer scalar / string /
sequence / mapping).  Floating-point scalars are outside the model.
-/

set_option autoImplicit false

namespace Jellyschema

/-- Generic input tree, mirroring `serde_yaml::Value` (without floats). -/
inductive Value where
  | null
  | bool (b : Bool)
  | number (n : Int)
  | string (s : String)
  | sequence (xs : List Value)
  | mapping (es : List (Value × Value))

/-- A YAML mapping: an insertion-ordered association list. -/
abbrev Mapping := List (Value × Value)

/-- Mirrors `Value::as_u64`: a non-negative integer scalar, or nothing. -/
def Value.as_u64 : Value → Option Nat
  | .number n => if 0 ≤ n then some n.toNat else none
  | _ => none

/-- Key comparison used by `Mapping::get(&Value::from(k))`: the looked-up
keys are always string literals, so an entry matches exactly when its key
is the string scalar `k`. -/
def keyIs (k : String) : Value → Bool
  | .string s => s == k
  | _ => false

/-- Mirrors `serde_yaml::Mapping::get` for a string key: the value of the
first entry whose key is the string `k`. -/
def mget (es : Mapping) (k : String) : Option Value :=
  (es.find? (fun p => keyIs k p.1)).map (·.2)

@[simp] theorem mget_nil (k : String) : mget [] k = none := rfl

theorem mget_cons (kv : Value × Value) (es : Mapping) (k : String) :
    mget (kv :: es) k = if keyIs k kv.1 then some kv.2 else mget es k := by
  by_cases h : keyIs k kv.1 = true
  · simp [mget, List.find?, h]
  · simp only [Bool.not_eq_true] at h
    simp [mget, List.find?, h]

theorem mget_cons_string_ne (s k : String) (w : Value) (es : Mapping) (h : s ≠ k) :
    mget ((Value.string s, w) :: es) k = mget es k := by
  have hk : keyIs k (Value.string s) = false := by
    simp [keyIs, h]
  simp [mget_cons, hk]

theorem mget_mem {es : Mapping} {k : String} {v : Value}
    (h : mget es k = some v) : ∃ kk, (kk, v) ∈ es := by
  unfold mget at h
  cases hf : es.find? (fun p => keyIs k p.1) with
  | none => simp [hf] at h
  | some p =>
    have hp := List.mem_of_find?_eq_some hf
    simp only [hf, Option.map_some', Option.some.injEq] at h
    exact ⟨p.1, by rw [← h]; simpa using hp⟩

theorem sizeOf_snd_lt_of_mem {es : Mapping} {kk v : Value}
    (h : (kk, v) ∈ es) : sizeOf v < sizeOf es := by
  have h1 : sizeOf (kk, v) < sizeOf es := List.sizeOf_lt_of_mem h
  have h2 : sizeOf v < sizeOf (kk, v) := by
    simp only [Prod.mk.sizeOf_spec]
    omega
  omega

/-- The value found at a key of a mapping is smaller than the mapping node
itself; this bounds the recursion of the deserializer. -/
theorem mget_sizeOf_lt (es : Mapping) (k : String) :
    sizeOf (mget es k) < sizeOf (Value.mapping es) := by
  cases h : mget es k with
  | none =>
    simp only [Value.mapping.sizeOf_spec]
    have : 0 < sizeOf es := by cases es <;> simp
    simp
    omega
  | some v =>
    obtain ⟨kk, hm⟩ := mget_mem h
    have := sizeOf_snd_lt_of_mem hm
    simp only [Value.mapping.sizeOf_spec, Option.some.sizeOf_spec]
    omega

/-- Compilation failure taxonomy of the pipeline. -/
inductive CompilationError where
  | TypeMismatch (msg : String)
  | UnsupportedVersion (v : Nat)
  | DeserializationError (msg : String)
  | SerializationError (msg : String)
  deriving DecidableEq

/-- Modelled from the spec: the widget hint is a closed enum of rendering
hints (the `Widget` enum itself is not under the given sources). -/
inductive Widget where
  | Textarea
  | Dropdown
  deriving DecidableEq

/-- Modelled from the spec: the closed set of concrete type kinds; the
kind-specific configuration payloads (not part of the given sources) are
kept abstract. -/
inductive RawObjectType where
  | Object
  | String (conf : Option Unit)
  | Text (conf : Option Unit)
  | Number
  | Boolean
  deriving DecidableEq

/-- A `RawObjectType` wrapped in the requiredness marker. -/
inductive ObjectType where
  | Required (raw : RawObjectType)
  | Optional (raw : RawObjectType)
  deriving DecidableEq

/-- Mirrors `ObjectType::inner_raw`. -/
def ObjectType.inner_raw : ObjectType → RawObjectType
  | .Required r => r
  | .Optional r => r

/-- Per-node display metadata (title, help, warning, description, widget). -/
structure Annotations where
  title : Option String
  help : Option String
  warning : Option String
  description : Option String
  widget : Option Widget
  deriving DecidableEq

/-- Display metadata of an enumeration value (src/dsl/enums/mod.rs). -/
structure DisplayInformation where
  title : Option String
  help : Option String
  warning : Option String
  description : Option String
  deriving DecidableEq

/-- One allowed literal of an enumeration (src/dsl/enums/mod.rs). -/
structure EnumerationValue where
  type_spec : ObjectType
  display_information : DisplayInformation
  value : Option String
  deriving DecidableEq

/-- Mirrors `impl From<&str> for EnumerationValue` (src/dsl/enums/mod.rs). -/
def EnumerationValue.from (value : String) : EnumerationValue :=
  let title := value
  { display_information :=
      { title := some title
        help := none
        warning := none
        description := none }
    value := some title
    type_spec := ObjectType.Required (RawObjectType.String none) }

mutual
/-- The deserialized schema node (the `Schema` struct built by
`deserialize_schema`). -/
inductive Schema where
  | mk (version : Option Nat) (object_type : ObjectType)
       (children : Option SchemaList) (dynamic : Option (Value × Value))
       (anns : Annotations) (formula : Option String)

/-- Ordered list of named child schemas. -/
inductive SchemaList where
  | mk (entries : List NamedSchema)

/-- A (name, schema) pair: one declared property. -/
inductive NamedSchema where
  | mk (name : String) (schema : Schema)
end

def Schema.version : Schema → Option Nat
  | .mk v _ _ _ _ _ => v

def Schema.object_type : Schema → ObjectType
  | .mk _ t _ _ _ _ => t

def Schema.children : Schema → Option SchemaList
  | .mk _ _ c _ _ _ => c

def Schema.dynamic : Schema → Option (Value × Value)
  | .mk _ _ _ d _ _ => d

def Schema.annotations : Schema → Annotations
  | .mk _ _ _ _ a _ => a

def Schema.formula : Schema → Option String
  | .mk _ _ _ _ _ f => f

def SchemaList.entries : SchemaList → List NamedSchema
  | .mk l => l

def NamedSchema.name : NamedSchema → String
  | .mk n _ => n

def NamedSchema.schema : NamedSchema → Schema
  | .mk _ s => s

/-- Modelled from the spec: `Schema::with_version` (schema module is not
under the given sources) records the document-format version on the node. -/
def Schema.with_version (s : Schema) (v : Nat) : Schema :=
  match s with
  | .mk _ t c d a f => .mk (some v) t c d a f

/-- The compiled document: the root schema node. -/
structure DocumentRoot where
  schema : Schema

/-- The single supported document-format version. -/
def DEFAULT_VERSION : Nat := 1

/-- Mirrors the `version` reader of the deserializer: absent key gives
none; a present value must be a non-negative integer equal to the
supported version. -/
def version (es : Mapping) : Except CompilationError (Option Nat) :=
  match mget es "version" with
  | none => .ok none
  | some v =>
    match v.as_u64 with
    | none => .error (.DeserializationError "version must be a positive integer")
    | some n =>
      if n ≠ DEFAULT_VERSION then .error (.UnsupportedVersion n)
      else .ok (some n)

/-- Four-digit hexadecimal rendering of a code point below 0x10000. -/
def hex4 (n : Nat) : String :=
  let digit := fun (d : Nat) => String.singleton (Nat.digitChar d)
  digit (n / 4096 % 16) ++ digit (n / 256 % 16) ++ digit (n / 16 % 16) ++ digit (n % 16)

/-- JSON string escaping as performed by the JSON encoder used for
non-string formula values: quote, backslash and control characters are
escaped, everything else is copied. -/
def jsonEscapeChar (c : Char) : String :=
  if c = '"' then "\\\""
  else if c = '\\' then "\\\\"
  else if c = '\x08' then "\\b"
  else if c = '\t' then "\\t"
  else if c = '\n' then "\\n"
  else if c = '\x0c' then "\\f"
  else if c = '\r' then "\\r"
  else if c.toNat < 0x20 then "\\u" ++ hex4 c.toNat
  else String.singleton c

/-- A JSON string literal: quoted and escaped. -/
def json_quote (s : String) : String :=
  "\"" ++ String.join (s.toList.map jsonEscapeChar) ++ "\""

/-- A JSON object key for a mapping key value: string keys are quoted,
integer keys are rendered as quoted integers, any other key is not
encodable (the encoder demands string-like keys). -/
def json_key : Value → Option String
  | .string s => some (json_quote s)
  | .number n => some ("\"" ++ toString n ++ "\"")
  | _ => none

mutual
/-- Mirrors `serde_json::to_string` on an input tree value: the textual
JSON encoding, or nothing when the value is not JSON-encodable (a mapping
with a non-string-like key). -/
def json_to_string : Value → Option String
  | .null => some "null"
  | .bool b => some (if b then "true" else "false")
  | .number n => some (toString n)
  | .string s => some (json_quote s)
  | .sequence xs => (json_seq xs).map (fun body => "[" ++ body ++ "]")
  | .mapping es => (json_map es).map (fun body => "\x7b" ++ body ++ "\x7d")

/-- Comma-separated JSON encodings of the elements of a sequence. -/
def json_seq : List Value → Option String
  | [] => some ""
  | [x] => json_to_string x
  | x :: y :: rest => do
    pure ((← json_to_string x) ++ "," ++ (← json_seq (y :: rest)))

/-- Comma-separated `key:value` JSON encodings of the entries of a mapping. -/
def json_map : List (Value × Value) → Option String
  | [] => some ""
  | [(k, v)] => do pure ((← json_key k) ++ ":" ++ (← json_to_string v))
  | (k, v) :: e :: rest => do
    pure ((← json_key k) ++ ":" ++ (← json_to_string v) ++ "," ++ (← json_map (e :: rest)))
end

/-- Mirrors the `formula` reader of the deserializer: absent key gives
none, a string value is kept verbatim, any other value is re-encoded into
its textual JSON form, and an unencodable value fails. -/
def formula (es : Mapping) : Except CompilationError (Option String) :=
  match mget es "formula" with
  | none => .ok none
  | some (.string s) => .ok (some s)
  | some v =>
    match json_to_string v with
    | some t => .ok (some t)
    | none => .error (.SerializationError "error parsing formula value expression")

/-- Modelled from the spec: one annotation field is decoded from the
node's mapping — absent gives none, a string is kept, any other shape is
a decode failure (the serde-derived `Annotations` decoder is not under
the given sources). -/
def readStringEntry (es : Mapping) (k : String) : Except CompilationError (Option String) :=
  match mget es k with
  | none => .ok none
  | some (.string s) => .ok (some s)
  | some _ => .error (.DeserializationError "cannot deserialize schema annotations")

/-- Modelled from the spec: the widget hint decodes from the closed set of
widget names; any other shape is a decode failure. -/
def parse_widget : Value → Except CompilationError Widget
  | .string "textarea" => .ok .Textarea
  | .string "dropdown" => .ok .Dropdown
  | _ => .error (.DeserializationError "cannot deserialize schema annotations")

/-- Mirrors the `annotations` reader: the display metadata is decoded from
the node's full value (which must be a mapping); unrecognized keys are
ignored, shape mismatches of the recognized keys fail. -/
def annotations (v : Value) : Except CompilationError Annotations :=
  match v with
  | .mapping es => do
    let t ← readStringEntry es "title"
    let h ← readStringEntry es "help"
    let w ← readStringEntry es "warning"
    let d ← readStringEntry es "description"
    let wid ← match mget es "widget" with
      | none => Except.ok (none : Option Widget)
      | some wv => (parse_widget wv).map some
    .ok { title := t, help := h, warning := w, description := d, widget := wid }
  | _ => .error (.DeserializationError "cannot deserialize schema annotations")

/-- Modelled from the spec: a kind name maps onto the closed set of
concrete kinds (the object-type deserializer is not under the given
sources); unknown names fail. -/
def parse_type_name (s : String) : Except CompilationError RawObjectType :=
  if s = "object" then .ok .Object
  else if s = "string" then .ok (.String none)
  else if s = "text" then .ok (.Text none)
  else if s = "number" then .ok .Number
  else if s = "boolean" then .ok .Boolean
  else .error (.DeserializationError "unknown type")

/-- Whether the type name carries the trailing optional marker. -/
def endsWithQuestion (s : String) : Bool :=
  s.toList.getLast? == some '?'

/-- The type name with its trailing optional marker removed. -/
def dropQuestion (s : String) : String :=
  ⟨s.toList.dropLast⟩

/-- Modelled from the spec: `deserialize_object_type` reads the dedicated
type-describing key; a trailing question mark marks the type optional,
otherwise it is required; an absent key yields nothing. -/
def deserialize_object_type (es : Mapping) : Except CompilationError (Option ObjectType) :=
  match mget es "type" with
  | none => .ok none
  | some (.string s) =>
    if endsWithQuestion s then
      (parse_type_name (dropQuestion s)).map (fun r => some (.Optional r))
    else (parse_type_name s).map (fun r => some (.Required r))
  | some _ => .error (.DeserializationError "cannot deserialize type")

/-- Modelled from the spec: `deserialize_individual_type_definition` for a
given kind name builds the required type of that kind (its kind-specific
configuration is abstract here). -/
def deserialize_individual_type_definition (name : String) (_es : Mapping) :
    Except CompilationError ObjectType :=
  (parse_type_name name).map .Required

/-- Mirrors the `type_information` reader: the explicit type if one is
present, the default kind "object" otherwise. -/
def type_information (es : Mapping) : Except CompilationError ObjectType := do
  match ← deserialize_object_type es with
  | some ti => .ok ti
  | none => deserialize_individual_type_definition "object" es

/-- Modelled from the spec: the external dynamic-schema extractor
`keys_values` reads the dynamic-schema keys of the mapping and yields the
raw (key-schema, value-schema) pair when both are present. -/
def keys_values (es : Mapping) : Except CompilationError (Option (Value × Value)) :=
  match mget es "keys", mget es "values" with
  | some k, some v => .ok (some (k, v))
  | _, _ => .ok none

/-- Mirrors `annotations_from_type`: the widget is forced to textarea on
text-kind nodes, everything else is kept. -/
def annotations_from_type (old_annotations : Annotations) (type_information : ObjectType) :
    Annotations :=
  let widget :=
    match type_information.inner_raw with
    | .Text _ => some Widget.Textarea
    | _ => old_annotations.widget
  { old_annotations with widget := widget }

mutual
/-- Mirrors `deserialize_schema`: the node value must be a mapping; its
version, type information, annotations (with the type-driven widget
override), properties, dynamic schema and formula are read in this order,
each failure aborting. -/
def deserialize_schema : Value → Except CompilationError Schema
  | .mapping es => do
    let ver ← version es
    let ti ← type_information es
    let anns ← annotations (.mapping es)
    let anns := annotations_from_type anns ti
    let props ← properties_of (mget es "properties")
    let dyn ← keys_values es
    let form ← formula es
    .ok (Schema.mk ver ti props dyn anns form)
  | _ => .error (.TypeMismatch "schema is not a yaml mapping")
termination_by v => sizeOf v
decreasing_by
  · simp only [Value.mapping.sizeOf_spec]
    exact lt_of_lt_of_le (mget_sizeOf_lt es "properties") (by simp)

/-- Dispatch on the looked-up `properties` entry: absent gives nothing, a
sequence is deserialized element by element, anything else is a shape
failure. -/
def properties_of : Option Value → Except CompilationError (Option SchemaList)
  | none => .ok none
  | some (.sequence xs) => (sequence_to_schema_list xs).map some
  | some _ => .error (.TypeMismatch "`properties` is not a yaml sequence")
termination_by ov => sizeOf ov

/-- Mirrors `sequence_to_schema_list`: each element must be a mapping and
is turned into a named schema, in order, the first failure aborting. -/
def sequence_to_schema_list : List Value → Except CompilationError SchemaList
  | [] => .ok (SchemaList.mk [])
  | .mapping m :: rest => do
    let n ← mapping_to_named_schema m
    let l ← sequence_to_schema_list rest
    .ok (SchemaList.mk (n :: l.entries))
  | _ :: _ => .error (.TypeMismatch "cannot deserialize schema as mapping")
termination_by xs => sizeOf xs

/-- Mirrors `mapping_to_named_schema`: the first entry of the mapping (any
further entries are ignored) gives the property name, which must be a
string, and the nested schema, which is deserialized recursively. -/
def mapping_to_named_schema : Mapping → Except CompilationError NamedSchema
  | [] => .error (.TypeMismatch "cannot get first element of the sequence")
  | (.string name, v) :: _ => do
    let s ← deserialize_schema v
    .ok (NamedSchema.mk name s)
  | _ :: _ => .error (.TypeMismatch "cannot deserialize named schema name")
termination_by m => sizeOf m
end

/-- Mirrors the `properties` reader of the deserializer: the lookup of the
`properties` key followed by the shape dispatch. -/
def properties (es : Mapping) : Except CompilationError (Option SchemaList) :=
  properties_of (mget es "properties")

/-- Mirrors `deserialize_root`: the root schema is deserialized, and a
missing version is filled with the supported default. -/
def deserialize_root (schema : Value) : Except CompilationError DocumentRoot := do
  let s ← deserialize_schema schema
  let s :=
    match s.version with
    | none => s.with_version DEFAULT_VERSION
    | some _ => s
  .ok (DocumentRoot.mk s)

/-- One-step unfolding of the deserializer on a mapping node, phrased with
explicit binds over the component readers. -/
theorem deserialize_schema_mapping (es : Mapping) :
    deserialize_schema (.mapping es) =
      (version es).bind (fun ver =>
        (type_information es).bind (fun ti =>
          (annotations (.mapping es)).bind (fun anns =>
            (properties es).bind (fun props =>
              (keys_values es).bind (fun dyn =>
                (formula es).bind (fun form =>
                  .ok (Schema.mk ver ti props dyn (annotations_from_type anns ti) form))))))) := by
  rw [deserialize_schema]
  rfl

theorem deserialize_schema_not_mapping {v : Value} (h : ∀ es, v ≠ .mapping es) :
    deserialize_schema v = .error (.TypeMismatch "schema is not a yaml mapping") := by
  cases v with
  | mapping es => exact absurd rfl (h es)
  | null => rw [deserialize_schema]; exact fun _ h' => nomatch h'
  | bool b => rw [deserialize_schema]; exact fun _ h' => nomatch h'
  | number n => rw [deserialize_schema]; exact fun _ h' => nomatch h'
  | string s => rw [deserialize_schema]; exact fun _ h' => nomatch h'
  | sequence xs => rw [deserialize_schema]; exact fun _ h' => nomatch h'

/-- Inversion of a successful deserialization of a mapping node: every
component reader succeeded and the node is assembled from their results. -/
theorem deserialize_schema_ok_inv {es : Mapping} {s : Schema}
    (h : deserialize_schema (.mapping es) = .ok s) :
    ∃ ver ti anns props dyn form,
      version es = .ok ver ∧ type_information es = .ok ti ∧
      annotations (.mapping es) = .ok anns ∧ properties es = .ok props ∧
      keys_values es = .ok dyn ∧ formula es = .ok form ∧
      s = Schema.mk ver ti props dyn (annotations_from_type anns ti) form := by
  rw [deserialize_schema_mapping] at h
  cases hv : version es with
  | error e => simp [hv, Except.bind] at h
  | ok ver =>
  simp only [hv, Except.bind] at h
  cases ht : type_information es with
  | error e => simp [ht, Except.bind] at h
  | ok ti =>
  simp only [ht, Except.bind] at h
  cases ha : annotations (.mapping es) with
  | error e => simp [ha, Except.bind] at h
  | ok anns =>
  simp only [ha, Except.bind] at h
  cases hp : properties es with
  | error e => simp [hp, Except.bind] at h
  | ok props =>
  simp only [hp, Except.bind] at h
  cases hd : keys_values es with
  | error e => simp [hd, Except.bind] at h
  | ok dyn =>
  simp only [hd, Except.bind] at h
  cases hf : formula es with
  | error e => simp [hf, Except.bind] at h
  | ok form =>
  simp only [hf, Except.bind, Except.ok.injEq] at h
  exact ⟨ver, ti, anns, props, dyn, form, rfl, rfl, rfl, rfl, rfl, rfl, h.symm⟩

/-- Inversion of the version reader: on success the version is either
absent or the explicit supported value. -/
theorem version_ok_inv {es : Mapping} {ov : Option Nat}
    (h : version es = .ok ov) :
    (ov = none ∧ mget es "version" = none) ∨
      (ov = some 1 ∧ mget es "version" = some (.number 1)) := by
  unfold version at h
  cases hm : mget es "version" with
  | none =>
    simp only [hm, Except.ok.injEq] at h
    exact Or.inl ⟨h.symm, rfl⟩
  | some v =>
    simp only [hm] at h
    cases hu : v.as_u64 with
    | none => simp [hu] at h
    | some n =>
      simp only [hu] at h
      split at h
      · exact absurd h (by simp)
      · rename_i hn
        have hn1 : n = 1 := by
          simpa [DEFAULT_VERSION] using hn
        subst hn1
        simp only [Except.ok.injEq] at h
        refine Or.inr ⟨h.symm, ?_⟩
        cases v with
        | number i =>
          simp only [Value.as_u64] at hu
          split at hu
          · rename_i hi
            simp only [Option.some.injEq] at hu
            have : i = 1 := by omega
            simp [this]
          · exact absurd hu (by simp)
        | null => simp [Value.as_u64] at hu
        | bool b => simp [Value.as_u64] at hu
        | string s => simp [Value.as_u64] at hu
        | sequence xs => simp [Value.as_u64] at hu
        | mapping m => simp [Value.as_u64] at hu

section VersionEntryInvariance

/-- Abbreviation for the explicit supported-version entry. -/
def versionEntry : Value × Value := (Value.string "version", Value.number 1)

theorem version_vcons (es : Mapping) :
    version (versionEntry :: es) = .ok (some 1) := by
  simp [version, versionEntry, mget_cons, keyIs, Value.as_u64, DEFAULT_VERSION]

theorem version_of_no_key {es : Mapping} (h : mget es "version" = none) :
    version es = .ok none := by
  simp [version, h]

theorem readStringEntry_vcons (es : Mapping) (k : String) (h : ("version" == k) = false) :
    readStringEntry (versionEntry :: es) k = readStringEntry es k := by
  simp [readStringEntry, versionEntry, mget_cons, keyIs, h]

theorem type_information_vcons (es : Mapping) :
    type_information (versionEntry :: es) = type_information es := by
  simp only [type_information, deserialize_object_type, versionEntry, mget_cons, keyIs]
  rfl

theorem annotations_vcons (es : Mapping) :
    annotations (.mapping (versionEntry :: es)) = annotations (.mapping es) := by
  simp [annotations, readStringEntry, versionEntry, mget_cons, keyIs]

theorem properties_vcons (es : Mapping) :
    properties (versionEntry :: es) = properties es := by
  simp [properties, versionEntry, mget_cons, keyIs]

theorem keys_values_vcons (es : Mapping) :
    keys_values (versionEntry :: es) = keys_values es := by
  simp [keys_values, versionEntry, mget_cons, keyIs]

theorem formula_vcons (es : Mapping) :
    formula (versionEntry :: es) = formula es := by
  simp [formula, versionEntry, mget_cons, keyIs]

theorem with_version_version (s : Schema) (v : Nat) :
    (s.with_version v).version = some v := by
  cases s; rfl

end VersionEntryInvariance

/-- C1: a document with no `version` key deserializes to the same result
as the same document with an explicit `version: 1` entry, and on success
the root version is filled with the supported default 1; a document whose
explicit integer version value differs from 1 fails with
UnsupportedVersion. -/
theorem C1_version_default_and_unsupported :
    (∀ es : Mapping, mget es "version" = none →
      deserialize_root (.mapping (versionEntry :: es)) = deserialize_root (.mapping es) ∧
      (∀ r, deserialize_root (.mapping es) = .ok r → r.schema.version = some 1)) ∧
    (∀ (es : Mapping) (n : Int), mget es "version" = some (.number n) → 0 ≤ n → n ≠ 1 →
      deserialize_root (.mapping es) = .error (.UnsupportedVersion n.toNat)) := by
  constructor
  · intro es h
    constructor
    · unfold deserialize_root
      rw [deserialize_schema_mapping, deserialize_schema_mapping]
      simp only [version_vcons, version_of_no_key h, type_information_vcons,
        annotations_vcons, properties_vcons, keys_values_vcons, formula_vcons, Except.bind]
      cases hti : type_information es with
      | error e => rfl
      | ok ti =>
        simp only [Except.bind]
        cases ha : annotations (.mapping es) with
        | error e => rfl
        | ok anns =>
          simp only [Except.bind]
          cases hp : properties es with
          | error e => rfl
          | ok props =>
            simp only [Except.bind]
            cases hd : keys_values es with
            | error e => rfl
            | ok dyn =>
              simp only [Except.bind]
              cases hf : formula es with
              | error e => rfl
              | ok form =>
                simp only [Except.bind]
                simp [Bind.bind, Except.bind, Schema.version, Schema.with_version,
                  DEFAULT_VERSION]
    · intro r hr
      unfold deserialize_root at hr
      cases hds : deserialize_schema (.mapping es) with
      | error e => simp [hds, Bind.bind, Except.bind] at hr
      | ok s =>
        obtain ⟨ver, ti, anns, props, dyn, form, hv, -, -, -, -, -, hs⟩ :=
          deserialize_schema_ok_inv hds
        have hvn : ver = none := by
          rw [version_of_no_key h] at hv
          exact (Except.ok.injEq _ _).mp hv.symm
        subst hvn
        simp only [hds, Bind.bind, Except.bind, Except.ok.injEq] at hr
        subst hr
        simp [hs, Schema.version, Schema.with_version, DEFAULT_VERSION]
  · intro es n hm h0 hn
    have hv : version es = .error (.UnsupportedVersion n.toNat) := by
      have htn : ¬ n.toNat = DEFAULT_VERSION := by
        simp only [DEFAULT_VERSION]
        omega
      simp [version, hm, Value.as_u64, h0, htn]
    unfold deserialize_root
    rw [deserialize_schema_mapping]
    simp [hv, Bind.bind, Except.bind]

/-- C1 witness: the empty document equals the explicit `version: 1`
document, and `version: 2` is rejected with UnsupportedVersion. -/
theorem C1_witness :
    deserialize_root (.mapping [versionEntry]) = deserialize_root (.mapping []) ∧
    deserialize_root (.mapping [(Value.string "version", Value.number 2)]) =
      .error (.UnsupportedVersion 2) := by
  constructor
  · exact (C1_version_default_and_unsupported.1 [] rfl).1
  · exact C1_version_default_and_unsupported.2 [(Value.string "version", Value.number 2)] 2
      rfl (by norm_num) (by norm_num)

/-!
Intermediate representation normalized by src/dsl/schema/normalization.rs:
a `SourceSchema` holds an optional property list whose entries each carry a
property with an optional candidate-type list.
-/

/-- A property of the intermediate representation: its candidate-type
list, absent when the property was declared without a type. -/
structure Property where
  types : Option (List ObjectType)
  deriving DecidableEq

/-- One named property entry of the intermediate representation. -/
structure PropertyEntry where
  name : String
  property : Property
  deriving DecidableEq

/-- The ordered property list of the intermediate representation. -/
structure PropertyList where
  entries : List PropertyEntry
  deriving DecidableEq

/-- The intermediate schema whose property list is normalized in place. -/
structure SourceSchema where
  property_list : Option PropertyList
  deriving DecidableEq

/-- Modelled from the spec: the per-candidate-type normalization
(`ObjectType::normalize`, not under the given sources) applies the same
defaulting rule to the type's nested structure; the kind-specific
configuration payloads are abstract in this model, so there is nothing
for it to rewrite. -/
def ObjectType.normalize (t : ObjectType) : ObjectType := t

/-- Mirrors `impl Normalize for PropertyEntry`: present candidate types
are each normalized; an absent candidate-type list becomes exactly the
one-element list `[Required(Object)]`. -/
def PropertyEntry.normalize (e : PropertyEntry) : PropertyEntry :=
  let types :=
    match e.property.types with
    | some spec => some (spec.map ObjectType.normalize)
    | none => none
  let types :=
    if types.isNone then some [ObjectType.Required RawObjectType.Object] else types
  { e with property := { e.property with types := types } }

/-- Mirrors `impl Normalize for SourceSchema`: every entry of the property
list is normalized in place. -/
def SourceSchema.normalize (s : SourceSchema) : SourceSchema :=
  { s with property_list :=
      s.property_list.map (fun l => { l with entries := l.entries.map PropertyEntry.normalize }) }

/-- The property names of the intermediate schema, in order. -/
def SourceSchema.property_names (s : SourceSchema) : List String :=
  match s.property_list with
  | none => []
  | some l => l.entries.map PropertyEntry.name

/-- Modelled from the spec: the serializer builds the output `properties`
entry from the property sequence in order (the recursive property
serializer is not under the given sources), so the serialized property
order is the order of the entries. -/
def serialized_property_names (s : SourceSchema) : List String :=
  s.property_names

/-- C3: a property entry without candidate types is normalized to exactly
`[Required(Object)]`; one with candidate types keeps them, each normalized
recursively. -/
theorem C3_untyped_property_defaults_to_required_object :
    ∀ e : PropertyEntry,
      (e.property.types = none →
        e.normalize.property.types = some [ObjectType.Required RawObjectType.Object]) ∧
      (∀ l, e.property.types = some l →
        e.normalize.property.types = some (l.map ObjectType.normalize)) := by
  intro e
  constructor
  · intro h
    simp [PropertyEntry.normalize, h]
  · intro l h
    simp [PropertyEntry.normalize, h]

/-- C3 witness: the untyped entry gets `[Required(Object)]`, and an entry
typed `[Required(String)]` keeps its list. -/
theorem C3_witness :
    (PropertyEntry.normalize ⟨"a", ⟨none⟩⟩).property.types =
      some [ObjectType.Required RawObjectType.Object] ∧
    (PropertyEntry.normalize
        ⟨"b", ⟨some [ObjectType.Required (RawObjectType.String none)]⟩⟩).property.types =
      some [ObjectType.Required (RawObjectType.String none)] := by
  constructor
  · exact (C3_untyped_property_defaults_to_required_object ⟨"a", ⟨none⟩⟩).1 rfl
  · exact (C3_untyped_property_defaults_to_required_object
      ⟨"b", ⟨some [ObjectType.Required (RawObjectType.String none)]⟩⟩).2 _ rfl

/-- C7: normalization is idempotent — normalizing a document twice yields
the same tree as normalizing it once. -/
theorem C7_normalize_idempotent :
    ∀ s : SourceSchema, s.normalize.normalize = s.normalize := by
  intro s
  cases s with
  | mk pl =>
    cases pl with
    | none => rfl
    | some l =>
      simp only [SourceSchema.normalize, Option.map_some', SourceSchema.mk.injEq,
        Option.some.injEq, PropertyList.mk.injEq]
      cases l with
      | mk entries =>
        simp only [List.map_map]
        apply List.map_congr_left
        intro e _
        simp only [Function.comp_apply]
        cases e with
        | mk n p =>
          cases p with
          | mk ts =>
            cases ts with
            | none => simp [PropertyEntry.normalize, ObjectType.normalize]
            | some tl => simp [PropertyEntry.normalize, ObjectType.normalize]

/-- C9: an EnumerationValue built from a string literal has that literal
as its title and value, and a required string type. -/
theorem C9_enumeration_value_from_string :
    ∀ s : String,
      (EnumerationValue.from s).display_information.title = some s ∧
      (EnumerationValue.from s).value = some s ∧
      (EnumerationValue.from s).type_spec =
        ObjectType.Required (RawObjectType.String none) := by
  intro s
  exact ⟨rfl, rfl, rfl⟩

/-- C2: a successfully deserialized node whose resolved kind is text
carries the textarea widget, whatever widget the input asked for. -/
theorem C2_text_kind_forces_textarea :
    ∀ (v : Value) (s : Schema) (conf : Option Unit),
      deserialize_schema v = .ok s →
      s.object_type.inner_raw = RawObjectType.Text conf →
      s.annotations.widget = some Widget.Textarea := by
  intro v s conf hok htext
  cases v with
  | mapping es =>
    obtain ⟨ver, ti, anns, props, dyn, form, -, -, -, -, -, -, hs⟩ :=
      deserialize_schema_ok_inv hok
    subst hs
    simp only [Schema.object_type] at htext
    simp only [Schema.annotations, annotations_from_type, htext]
  | null =>
    rw [deserialize_schema_not_mapping (fun _ h => Value.noConfusion h)] at hok
    exact Except.noConfusion hok
  | bool b =>
    rw [deserialize_schema_not_mapping (fun _ h => Value.noConfusion h)] at hok
    exact Except.noConfusion hok
  | number n =>
    rw [deserialize_schema_not_mapping (fun _ h => Value.noConfusion h)] at hok
    exact Except.noConfusion hok
  | string t =>
    rw [deserialize_schema_not_mapping (fun _ h => Value.noConfusion h)] at hok
    exact Except.noConfusion hok
  | sequence xs =>
    rw [deserialize_schema_not_mapping (fun _ h => Value.noConfusion h)] at hok
    exact Except.noConfusion hok

/-- C2 witness: a text-typed node that explicitly asked for the dropdown
widget still deserializes with the textarea widget. -/
theorem C2_witness :
    (Schema.mk none (.Required (.Text none)) none none
        ⟨none, none, none, none, some Widget.Textarea⟩ none).annotations.widget =
      some Widget.Textarea := by
  have ht : type_information [(Value.string "type", Value.string "text"),
      (Value.string "widget", Value.string "dropdown")] =
      .ok (.Required (.Text none)) := by rfl
  have h : deserialize_schema (.mapping [(Value.string "type", Value.string "text"),
      (Value.string "widget", Value.string "dropdown")]) =
      .ok (Schema.mk none (.Required (.Text none)) none none
        ⟨none, none, none, none, some Widget.Textarea⟩ none) := by
    rw [deserialize_schema_mapping]
    simp [ht, version, annotations, readStringEntry, parse_widget, mget, properties,
      properties_of, keys_values, formula, annotations_from_type, List.find?, keyIs,
      Bind.bind, Except.bind, Except.map, ObjectType.inner_raw]
  exact C2_text_kind_forces_textarea _ _ none h rfl

/-- C10: the type-driven annotation override changes only the widget:
title, help, warning and description always survive, and the widget
survives whenever the kind is not text. -/
theorem C10_annotation_override_frame :
    ∀ (a : Annotations) (t : ObjectType),
      (annotations_from_type a t).title = a.title ∧
      (annotations_from_type a t).help = a.help ∧
      (annotations_from_type a t).warning = a.warning ∧
      (annotations_from_type a t).description = a.description ∧
      ((∀ conf, t.inner_raw ≠ RawObjectType.Text conf) →
        (annotations_from_type a t).widget = a.widget) := by
  intro a t
  refine ⟨rfl, rfl, rfl, rfl, ?_⟩
  intro hnt
  cases hr : t.inner_raw with
  | Text conf => exact absurd hr (hnt conf)
  | Object => simp [annotations_from_type, hr]
  | String conf => simp [annotations_from_type, hr]
  | Number => simp [annotations_from_type, hr]
  | Boolean => simp [annotations_from_type, hr]

/-- C10 witness: the override on a required-object node with a dropdown
widget keeps every field including the widget. -/
theorem C10_witness :
    (annotations_from_type ⟨some "t", none, none, none, some Widget.Dropdown⟩
        (ObjectType.Required RawObjectType.Object)).widget = some Widget.Dropdown := by
  exact (C10_annotation_override_frame ⟨some "t", none, none, none, some Widget.Dropdown⟩
    (ObjectType.Required RawObjectType.Object)).2.2.2.2
    (fun _ h => RawObjectType.noConfusion h)

/-- C5: the formula reader keeps an absent entry absent, a string value
verbatim, re-encodes any other encodable value into its textual JSON form,
and fails with SerializationError on an unencodable value. -/
theorem C5_formula_reader :
    ∀ es : Mapping,
      (mget es "formula" = none → formula es = .ok none) ∧
      (∀ s, mget es "formula" = some (.string s) → formula es = .ok (some s)) ∧
      (∀ v t, mget es "formula" = some v → (∀ s, v ≠ .string s) →
        json_to_string v = some t → formula es = .ok (some t)) ∧
      (∀ v, mget es "formula" = some v → (∀ s, v ≠ .string s) →
        json_to_string v = none →
        formula es = .error (.SerializationError "error parsing formula value expression")) := by
  intro es
  refine ⟨?_, ?_, ?_, ?_⟩
  · intro h
    simp [formula, h]
  · intro s h
    simp [formula, h]
  · intro v t hm hns hj
    cases v with
    | string s => exact absurd rfl (hns s)
    | null => simp_all [formula, json_to_string]
    | bool b => simp_all [formula, json_to_string]
    | number n => simp_all [formula, json_to_string]
    | sequence xs => simp [formula, hm, hj]
    | mapping m => simp [formula, hm, hj]
  · intro v hm hns hj
    cases v with
    | string s => exact absurd rfl (hns s)
    | null => simp_all [json_to_string]
    | bool b => simp_all [json_to_string]
    | number n => simp_all [json_to_string]
    | sequence xs => simp [formula, hm, hj]
    | mapping m => simp [formula, hm, hj]

/-- C5 witness: the mapping formula value from the spec's concrete
scenario is re-encoded into its JSON text. -/
theorem C5_witness :
    formula [(Value.string "formula",
        Value.mapping [(Value.string "op", Value.string "sum")])] =
      .ok (some "\x7b\"op\":\"sum\"\x7d") := by
  exact (C5_formula_reader _).2.2.1
    (Value.mapping [(Value.string "op", Value.string "sum")]) "\x7b\"op\":\"sum\"\x7d"
    rfl (fun _ h => Value.noConfusion h) rfl

/-- C6 counterexample: an element that is a two-entry mapping — not a
single-entry mapping — does not make deserialization fail with
TypeMismatch; its first entry is used and the second is ignored. -/
theorem C6_counterexample :
    sequence_to_schema_list
        [Value.mapping [(Value.string "a", Value.mapping []),
                        (Value.string "b", Value.mapping [])]] =
      .ok (SchemaList.mk [NamedSchema.mk "a"
        (Schema.mk none (.Required .Object) none none
          ⟨none, none, none, none, none⟩ none)]) := by
  simp [sequence_to_schema_list, mapping_to_named_schema, deserialize_schema, version,
    type_information, deserialize_object_type, deserialize_individual_type_definition,
    parse_type_name, annotations, readStringEntry, mget, properties_of, keys_values, formula,
    annotations_from_type, List.find?, keyIs, Bind.bind, Except.bind, Except.map,
    ObjectType.inner_raw, SchemaList.entries]

/-- C6 amended: `properties` fails with TypeMismatch when its value is not
a sequence; an element fails when it is not a mapping, is an empty
mapping, or its first key is not a string; a mapping element with more
than one entry is accepted — only its first entry is deserialized, any
further entries are ignored — and recursive failures propagate. -/
theorem C6_properties_shape_errors :
    (∀ es : Mapping,
      (mget es "properties" = none → properties es = .ok none) ∧
      (∀ pv, mget es "properties" = some pv → (∀ xs, pv ≠ .sequence xs) →
        properties es = .error (.TypeMismatch "`properties` is not a yaml sequence")) ∧
      (∀ xs, mget es "properties" = some (.sequence xs) →
        properties es = (sequence_to_schema_list xs).map some)) ∧
    (∀ (v : Value) (rest : List Value), (∀ m, v ≠ .mapping m) →
      sequence_to_schema_list (v :: rest) =
        .error (.TypeMismatch "cannot deserialize schema as mapping")) ∧
    (∀ rest : List Value,
      sequence_to_schema_list (.mapping [] :: rest) =
        .error (.TypeMismatch "cannot get first element of the sequence")) ∧
    (∀ (k v : Value) (more : Mapping), (∀ s, k ≠ .string s) →
      mapping_to_named_schema ((k, v) :: more) =
        .error (.TypeMismatch "cannot deserialize named schema name")) ∧
    (∀ (n : String) (v : Value) (more : Mapping),
      mapping_to_named_schema ((.string n, v) :: more) =
        (deserialize_schema v).map (fun s => NamedSchema.mk n s)) := by
  refine ⟨?_, ?_, ?_, ?_, ?_⟩
  · intro es
    refine ⟨?_, ?_, ?_⟩
    · intro h
      simp [properties, properties_of, h]
    · intro pv hm hns
      cases pv with
      | sequence xs => exact absurd rfl (hns xs)
      | null => simp [properties, properties_of, hm]
      | bool b => simp [properties, properties_of, hm]
      | number n => simp [properties, properties_of, hm]
      | string s => simp [properties, properties_of, hm]
      | mapping m => simp [properties, properties_of, hm]
    · intro xs hm
      simp [properties, properties_of, hm]
  · intro v rest hv
    cases v with
    | mapping m => exact absurd rfl (hv m)
    | null => simp [sequence_to_schema_list]
    | bool b => simp [sequence_to_schema_list]
    | number n => simp [sequence_to_schema_list]
    | string s => simp [sequence_to_schema_list]
    | sequence xs => simp [sequence_to_schema_list]
  · intro rest
    simp [sequence_to_schema_list, mapping_to_named_schema, Bind.bind, Except.bind]
  · intro k v more hk
    cases k with
    | string s => exact absurd rfl (hk s)
    | null => simp [mapping_to_named_schema]
    | bool b => simp [mapping_to_named_schema]
    | number n => simp [mapping_to_named_schema]
    | sequence xs => simp [mapping_to_named_schema]
    | mapping m => simp [mapping_to_named_schema]
  · intro n v more
    rw [mapping_to_named_schema]
    cases hd : deserialize_schema v with
    | error e => simp [hd, Bind.bind, Except.bind, Except.map]
    | ok s => simp [hd, Bind.bind, Except.bind, Except.map]

/-- C6 amended-claim witness: the properties checks at concrete inputs —
a non-sequence value, a non-mapping element, an empty-mapping element and
a non-string key all fail with TypeMismatch. -/
theorem C6_witness :
    properties [(Value.string "properties", Value.number 3)] =
      .error (.TypeMismatch "`properties` is not a yaml sequence") ∧
    sequence_to_schema_list [Value.number 7] =
      .error (.TypeMismatch "cannot deserialize schema as mapping") ∧
    sequence_to_schema_list [Value.mapping []] =
      .error (.TypeMismatch "cannot get first element of the sequence") ∧
    mapping_to_named_schema [(Value.number 4, Value.mapping [])] =
      .error (.TypeMismatch "cannot deserialize named schema name") := by
  refine ⟨?_, ?_, ?_, ?_⟩
  · exact (C6_properties_shape_errors.1 _).2.1 (Value.number 3) rfl
      (fun _ h => Value.noConfusion h)
  · exact C6_properties_shape_errors.2.1 (Value.number 7) []
      (fun _ h => Value.noConfusion h)
  · exact C6_properties_shape_errors.2.2.1 []
  · exact C6_properties_shape_errors.2.2.2.1 (Value.number 4) (Value.mapping []) []
      (fun _ h => Value.noConfusion h)

/-- C8 counterexample: a successfully deserialized document whose nested
node carries its own `version: 1`; the nested schema's version is `some 1`,
not absent. -/
theorem C8_counterexample :
    deserialize_root (.mapping [(Value.string "properties",
        Value.sequence [Value.mapping [(Value.string "a",
          Value.mapping [(Value.string "version", Value.number 1)])]])]) =
      .ok (DocumentRoot.mk (Schema.mk (some 1) (.Required .Object)
        (some (SchemaList.mk [NamedSchema.mk "a"
          (Schema.mk (some 1) (.Required .Object) none none
            ⟨none, none, none, none, none⟩ none)]))
        none ⟨none, none, none, none, none⟩ none)) := by
  have h : deserialize_schema (.mapping [(Value.string "properties",
      Value.sequence [Value.mapping [(Value.string "a",
        Value.mapping [(Value.string "version", Value.number 1)])]])]) =
      .ok (Schema.mk none (.Required .Object)
        (some (SchemaList.mk [NamedSchema.mk "a"
          (Schema.mk (some 1) (.Required .Object) none none
            ⟨none, none, none, none, none⟩ none)]))
        none ⟨none, none, none, none, none⟩ none) := by
    simp [deserialize_schema, version, type_information, deserialize_object_type,
      deserialize_individual_type_definition, parse_type_name, annotations, readStringEntry,
      mget, properties_of, sequence_to_schema_list, mapping_to_named_schema, keys_values,
      formula, annotations_from_type, List.find?, keyIs, Bind.bind, Except.bind, Except.map,
      ObjectType.inner_raw, Value.as_u64, DEFAULT_VERSION, SchemaList.entries]
  rw [deserialize_root, h]
  rfl

/-- C8 amended: deserialization never invents a nested version — a node's
version is absent exactly when its mapping has no `version` key — but an
explicit `version: 1` entry on a nested node is accepted and recorded, so
nested nodes can carry a version; only the root is default-filled. -/
theorem C8_nested_version_only_explicit :
    ∀ (es : Mapping) (s : Schema), deserialize_schema (.mapping es) = .ok s →
      (s.version = none ↔ mget es "version" = none) ∧
      (∀ n, s.version = some n → n = 1 ∧ mget es "version" = some (.number 1)) := by
  intro es s hok
  obtain ⟨ver, ti, anns, props, dyn, form, hv, -, -, -, -, -, hs⟩ :=
    deserialize_schema_ok_inv hok
  have hver : s.version = ver := by simp [hs, Schema.version]
  rcases version_ok_inv hv with ⟨hn, hm⟩ | ⟨h1, hm⟩
  · subst hn
    constructor
    · simp [hver, hm]
    · intro n hn'
      rw [hver] at hn'
      exact Option.noConfusion hn'
  · subst h1
    constructor
    · constructor
      · intro h'
        rw [hver] at h'
        exact Option.noConfusion h'
      · intro h'
        rw [h'] at hm
        exact Option.noConfusion hm
    · intro n hn'
      rw [hver] at hn'
      have : n = 1 := by
        have := hn'.symm.trans rfl
        injection hn' with h''
        omega
      exact ⟨this, hm⟩

/-- C8 amended-claim witness: a child mapping without a version key
deserializes with no version. -/
theorem C8_witness :
    (Schema.mk none (.Required .Object) none none
        ⟨none, none, none, none, none⟩ none).version = none ∧
    mget ([] : Mapping) "version" = none := by
  have h : deserialize_schema (.mapping []) =
      .ok (Schema.mk none (.Required .Object) none none
        ⟨none, none, none, none, none⟩ none) := by
    simp [deserialize_schema, version, type_information, deserialize_object_type,
      deserialize_individual_type_definition, parse_type_name, annotations, readStringEntry,
      mget, properties_of, keys_values, formula, annotations_from_type, List.find?, keyIs,
      Bind.bind, Except.bind, Except.map, ObjectType.inner_raw]
  exact ⟨((C8_nested_version_only_explicit [] _ h).1).mpr rfl, rfl⟩

/-- C4: the deserialized property list carries the input names in input
order, and normalization carries that order unchanged to the serialized
output. -/
theorem C4_property_order_preserved :
    (∀ (nvs : List (String × Value)) (l : SchemaList),
      sequence_to_schema_list
          (nvs.map (fun p => Value.mapping [(Value.string p.1, p.2)])) = .ok l →
      l.entries.map NamedSchema.name = nvs.map Prod.fst) ∧
    (∀ s : SourceSchema, serialized_property_names s.normalize = s.property_names) := by
  constructor
  · intro nvs
    induction nvs with
    | nil =>
      intro l h
      rw [List.map_nil, sequence_to_schema_list] at h
      simp only [Except.ok.injEq] at h
      subst h
      simp [SchemaList.entries]
    | cons p rest ih =>
      intro l h
      rw [List.map_cons, sequence_to_schema_list] at h
      rw [mapping_to_named_schema] at h
      cases hd : deserialize_schema p.2 with
      | error e => simp [hd, Bind.bind, Except.bind] at h
      | ok s =>
        simp only [hd, Bind.bind, Except.bind] at h
        cases hrest : sequence_to_schema_list (rest.map (fun p => Value.mapping [(Value.string p.1, p.2)])) with
        | error e => simp [hrest, Except.bind] at h
        | ok l' =>
          simp only [hrest, Except.bind, Except.ok.injEq] at h
          subst h
          have hih := ih l' hrest
          cases l' with
          | mk ents =>
            simp only [SchemaList.entries] at hih
            simp only [SchemaList.entries, List.map_cons, NamedSchema.name]
            rw [hih]
  · intro s
    cases s with
    | mk pl =>
      cases pl with
      | none => rfl
      | some l =>
        simp [serialized_property_names, SourceSchema.property_names, SourceSchema.normalize,
          PropertyEntry.normalize]

/-- C4 witness: the two-property input `[a, b]` deserializes to names
`[a, b]` in order, and the trivial intermediate schema keeps its order. -/
theorem C4_witness :
    (SchemaList.mk [NamedSchema.mk "a"
        (Schema.mk none (.Required .Object) none none ⟨none, none, none, none, none⟩ none),
      NamedSchema.mk "b"
        (Schema.mk none (.Required .Object) none none
          ⟨none, none, none, none, none⟩ none)]).entries.map NamedSchema.name = ["a", "b"] := by
  have h : sequence_to_schema_list
      ([("a", Value.mapping []), ("b", Value.mapping [])].map
        (fun p => Value.mapping [(Value.string p.1, p.2)])) =
      .ok (SchemaList.mk [NamedSchema.mk "a"
        (Schema.mk none (.Required .Object) none none ⟨none, none, none, none, none⟩ none),
        NamedSchema.mk "b"
          (Schema.mk none (.Required .Object) none none
            ⟨none, none, none, none, none⟩ none)]) := by
    simp [sequence_to_schema_list, mapping_to_named_schema, deserialize_schema, version,
      type_information, deserialize_object_type, deserialize_individual_type_definition,
      parse_type_name, annotations, readStringEntry, mget, properties_of, keys_values, formula,
      annotations_from_type, List.find?, keyIs, Bind.bind, Except.bind, Except.map,
      ObjectType.inner_raw, SchemaList.entries]
  simpa using C4_property_order_preserved.1 [("a", Value.mapping []), ("b", Value.mapping [])]
    _ h

end Jellyschema
